import Mathlib

/-!
Verification of the QuestDB line-protocol client core (`src/lib.rs`):
the line-building state machine, name validation, text escaping and
value formatting of `LineSender`.

Strings are modelled as `List Char` (Rust iterates `str::chars()`);
byte lengths are recovered via `Char.utf8Size` where the source uses
UTF-8 byte counts (`String::len`). Networking (`Socket`) is external:
the socket write in `flush` is modelled by a boolean outcome parameter,
and `connect`'s successful result is the initial sender state.
-/

namespace QuestDB

/-- Character constants, named to keep literals with quotes and backslashes
out of the source text. -/
def backslash_char : Char := Char.ofNat 92

/-- Double-quote character. -/
def quote_char : Char := Char.ofNat 34

/-- Single-quote character. -/
def squote_char : Char := Char.ofNat 39

/-- NUL character. -/
def nul_char : Char := Char.ofNat 0

/-- Newline character. -/
def newline_char : Char := Char.ofNat 10

/-- Carriage-return character. -/
def cr_char : Char := Char.ofNat 13

/-- Zero-width no-break space (UTF-8 BOM) codepoint, `'\u{FEFF}'` in the source. -/
def bom_char : Char := Char.ofNat 0xFEFF

/-- Predicate of `must_escape_unquoted` in the source: characters that the
unquoted escaping strategy prefixes with a backslash. -/
def must_escape_unquoted (c : Char) : Bool :=
  c = ' ' || c = ',' || c = '=' || c = newline_char || c = cr_char ||
  c = quote_char || c = backslash_char

/-- Predicate of `must_escape_quoted` in the source: characters that the
quoted escaping strategy prefixes with a backslash. -/
def must_escape_quoted (c : Char) : Bool :=
  c = newline_char || c = cr_char || c = quote_char || c = backslash_char

/-- Character-by-character escaping: a backslash is inserted before every
character satisfying `must` (the per-character loop of `write_escaped_impl`). -/
def escape_chars (must : Char → Bool) : List Char → List Char
  | [] => []
  | c :: rest => (if must c then [backslash_char, c] else [c]) ++ escape_chars must rest

/-- Embedding of `write_escaped_impl`: first pass counts the characters that
need escaping; the quoting characters surround the body; if the count is zero
the input is appended verbatim, otherwise character-by-character with inserted
backslashes. `quoting` is the text pushed by `quoting_fn` (empty or a quote). -/
def write_escaped_impl (must : Char → Bool) (quoting : List Char)
    (output s : List Char) : List Char :=
  let to_escape := (s.filter must).length
  output ++ quoting ++ (if to_escape = 0 then s else escape_chars must s) ++ quoting

/-- Embedding of `write_escaped_unquoted`. -/
def write_escaped_unquoted (output s : List Char) : List Char :=
  write_escaped_impl must_escape_unquoted [] output s

/-- Embedding of `write_escaped_quoted`. -/
def write_escaped_quoted (output s : List Char) : List Char :=
  write_escaped_impl must_escape_quoted [quote_char] output s

/-- Unescaping: remove each backslash standing before a character of the
escape set `must`. Left inverse of `escape_chars` (theorem
`unescape_escape_chars`). -/
def unescape (must : Char → Bool) : List Char → List Char
  | [] => []
  | [c] => [c]
  | c :: d :: rest =>
    if c = backslash_char ∧ must d then d :: unescape must rest
    else c :: unescape must (d :: rest)

/-- Strip the first and last character (the surrounding double quotes emitted
by the quoted strategy). -/
def strip_quotes (s : List Char) : List Char := (s.drop 1).dropLast

lemma escape_chars_eq_nil {must : Char → Bool} {s : List Char}
    (h : escape_chars must s = []) : s = [] := by
  cases s with
  | nil => rfl
  | cons c rest =>
    exfalso
    simp only [escape_chars] at h
    by_cases hc : must c <;> simp [hc] at h

lemma escape_chars_of_count_zero {must : Char → Bool} {s : List Char}
    (h : (s.filter must).length = 0) : escape_chars must s = s := by
  induction s with
  | nil => rfl
  | cons c rest ih =>
    simp only [List.filter] at h
    by_cases hc : must c
    · simp [hc] at h
    · simp only [escape_chars, hc, if_neg, Bool.false_eq_true, not_false_iff]
      simp only [hc] at h
      simp [ih h]

/-- `write_escaped_impl` always appends the character-by-character escape of
its input (the zero-count shortcut changes nothing but allocation). -/
lemma write_escaped_impl_eq (must : Char → Bool) (quoting output s : List Char) :
    write_escaped_impl must quoting output s
      = output ++ quoting ++ escape_chars must s ++ quoting := by
  unfold write_escaped_impl
  by_cases h : (s.filter must).length = 0
  · simp [h, escape_chars_of_count_zero h]
  · simp [h]

/-- Unescaping undoes escaping, provided the backslash itself is in the
escape set (true for both strategies). -/
lemma unescape_escape_chars (must : Char → Bool)
    (hb : must backslash_char = true) (s : List Char) :
    unescape must (escape_chars must s) = s := by
  induction s with
  | nil => rfl
  | cons c rest ih =>
    by_cases hc : must c
    · simp only [escape_chars, hc, if_pos, List.cons_append, List.nil_append]
      simp only [unescape, hc, and_true, if_pos, ih]
    · simp only [escape_chars, hc, if_neg, Bool.false_eq_true, not_false_iff,
        List.cons_append, List.nil_append]
      have hcb : c ≠ backslash_char := by
        intro he
        rw [he, hb] at hc
        exact hc rfl
      cases he : escape_chars must rest with
      | nil =>
        rw [escape_chars_eq_nil he]
        rfl
      | cons d rest2 =>
        simp only [unescape, hcb, false_and, if_neg, not_false_iff]
        rw [← he, ih]

/-- Embedding of the `Op` enum. `at` is a Lean keyword, so the operation is
called `at_op`. -/
inductive Op
  | table
  | symbol
  | column
  | at_op
  | flush
deriving DecidableEq, Repr

/-- Discriminant values of the `Op` enum (`1, 1 << 1, ...`), used as bitmask. -/
def Op.mask : Op → Nat
  | .table => 1
  | .symbol => 2
  | .column => 4
  | .at_op => 8
  | .flush => 16

/-- Embedding of the `State` enum. -/
inductive State
  | Connected
  | TableWritten
  | SymbolWritten
  | ColumnWritten
  | MayFlushOrTable
  | Moribund
deriving DecidableEq, Repr

/-- Discriminant values of the `State` enum: each state is the bitwise OR of
the masks of the operations legal in it. -/
def State.mask : State → Nat
  | .Connected => Op.mask .table
  | .TableWritten => Op.mask .symbol ||| Op.mask .column
  | .SymbolWritten => Op.mask .symbol ||| Op.mask .column ||| Op.mask .at_op
  | .ColumnWritten => Op.mask .column ||| Op.mask .at_op
  | .MayFlushOrTable => Op.mask .flush ||| Op.mask .table
  | .Moribund => 0

/-- Spec-side definition (section 4.4 table of the specification): the set of
operations legal in each state, written out state by state. Its agreement with
the bitmask test of the code is `spec_legal_iff_mask`. -/
def spec_legal : State → Op → Bool
  | .Connected, .table => true
  | .TableWritten, .symbol => true
  | .TableWritten, .column => true
  | .SymbolWritten, .symbol => true
  | .SymbolWritten, .column => true
  | .SymbolWritten, .at_op => true
  | .ColumnWritten, .column => true
  | .ColumnWritten, .at_op => true
  | .MayFlushOrTable, .flush => true
  | .MayFlushOrTable, .table => true
  | _, _ => false

lemma spec_legal_iff_mask (st : State) (op : Op) :
    spec_legal st op = true ↔ 0 < State.mask st &&& Op.mask op := by
  cases st <;> cases op <;> simp [spec_legal, State.mask, Op.mask] <;> decide

/-- Embedding of the `ErrorCode` enum. -/
inductive ErrorCode
  | CouldNotResolveAddr
  | InvalidApiCall
  | SocketError
  | InvalidUtf8
  | InvalidName
deriving DecidableEq, Repr

/-- Structured payload of `Name::new` failures. The Rust code formats these
into an `InvalidName` error message; `pos` is the index produced by
`name.chars().enumerate()`, i.e. a character index (the message text labels
it "byte position"). -/
inductive NameError
  | empty_name
  | bad_char (c : Char) (pos : Nat)
  | bom (pos : Nat)
deriving DecidableEq, Repr

/-- Structured form of the `Error` values produced by `LineSender`; the
payloads are exactly the data interpolated into the `format!` message.
`invalidApiCall` carries the attempted operation (`op.descr()`) and the state
whose `next_op_descr()` the message quotes. -/
inductive SenderError
  | invalidName (e : NameError)
  | invalidApiCall (op : Op) (violated : State)
  | socketError
deriving DecidableEq, Repr

/-- Error code carried by each structured error (the `code` field of `Error`). -/
def SenderError.code : SenderError → ErrorCode
  | .invalidName _ => .InvalidName
  | .invalidApiCall _ _ => .InvalidApiCall
  | .socketError => .SocketError

/-- Reserved-character test of `Name::new`'s match arm. -/
def is_reserved_name_char (c : Char) : Bool :=
  c = ' ' || c = '?' || c = '.' || c = ',' || c = squote_char || c = quote_char ||
  c = backslash_char || c = '/' || c = nul_char || c = ':' || c = ')' || c = '(' ||
  c = '+' || c = '-' || c = '*' || c = '%' || c = '~'

/-- Loop of `Name::new`: `for (index, c) in name.chars().enumerate()`; the
first reserved character or BOM aborts with its enumeration index. -/
def name_new_loop : Nat → List Char → Except NameError Unit
  | _, [] => .ok ()
  | index, c :: rest =>
    if is_reserved_name_char c then .error (.bad_char c index)
    else if c = bom_char then .error (.bom index)
    else name_new_loop (index + 1) rest

/-- Embedding of `Name::new`: empty names are rejected, then each character is
checked against the reserved set and the BOM codepoint. -/
def name_new (name : List Char) : Except NameError Unit :=
  if name = [] then .error .empty_name
  else name_new_loop 0 name

/-- UTF-8 byte length of a character list (Rust `String::len`). -/
def byte_len (s : List Char) : Nat := (s.map Char.utf8Size).sum

/-- Byte offset of the character at character-index `i` in `s`. -/
def byte_offset_at (s : List Char) (i : Nat) : Nat := byte_len (s.take i)

/-- Model of 64-bit floats restricted to the cases the source distinguishes.
IEEE-754 equality makes `value == f64::INFINITY` true exactly for positive
infinity (false for NaN and all finite values), and likewise for
`NEG_INFINITY`; every other value reaches the default `Display` formatter,
which renders NaN as `NaN` and a finite double as its shortest round-trip
decimal text, abstracted here as the `finite` payload. -/
inductive F64
  | posInf
  | negInf
  | nan
  | finite (text : List Char)
deriving DecidableEq, Repr

/-- Decimal rendering of an `i64` by Rust's `Display` (`write!("{}", v)`),
modelled by Lean's decimal `toString` on `Int`; `i64` values are the integers
in `[-2^63, 2^63)`. -/
def i64_to_chars (v : Int) : List Char := (toString v).toList

/-- Embedding of the `LineSender` struct minus the socket (external). -/
structure Sender where
  state : State
  output : List Char
  last_line_start : Nat
deriving DecidableEq, Repr

/-- Result of one sender call: the returned `Result<()>` paired with the
sender after the call (Rust mutates `self`). -/
abbrev Step := Except SenderError Unit × Sender

/-- Sender produced by a successful `connect`: state `Connected`, empty
buffer, boundary 0 (the socket itself is external). -/
def fresh_sender : Sender := { state := .Connected, output := [], last_line_start := 0 }

/-- Embedding of `LineSender::check_state`: if the current state's bitmask
has the operation's bit, succeed without change; otherwise return an
`InvalidApiCall` error and move to `Moribund`. -/
def check_state (s : Sender) (op : Op) : Step :=
  if 0 < State.mask s.state &&& Op.mask op then (.ok (), s)
  else (.error (.invalidApiCall op s.state), { s with state := .Moribund })

/-- Embedding of `LineSender::table`: name validation, state check, append
the escaped name (unquoted), state becomes `TableWritten`. -/
def table (s : Sender) (name : List Char) : Step :=
  match name_new name with
  | .error e => (.error (.invalidName e), s)
  | .ok () =>
    match check_state s .table with
    | (.error e, s') => (.error e, s')
    | (.ok _, s') =>
      (.ok (), { s' with
        output := write_escaped_unquoted s'.output name,
        state := .TableWritten })

/-- Embedding of `LineSender::symbol`: name validation, state check, append
`,` + escaped name + `=` + escaped value (both unquoted), state becomes
`SymbolWritten`. -/
def symbol (s : Sender) (name value : List Char) : Step :=
  match name_new name with
  | .error e => (.error (.invalidName e), s)
  | .ok () =>
    match check_state s .symbol with
    | (.error e, s') => (.error e, s')
    | (.ok _, s') =>
      (.ok (), { s' with
        output := write_escaped_unquoted
          (write_escaped_unquoted (s'.output ++ [',']) name ++ ['=']) value,
        state := .SymbolWritten })

/-- Embedding of `LineSender::write_column_key`: name validation, state
check, then a separator — a space when the symbol bit is set in the current
state, a comma otherwise — the escaped name and `=`; state becomes
`ColumnWritten`. -/
def write_column_key (s : Sender) (name : List Char) : Step :=
  match name_new name with
  | .error e => (.error (.invalidName e), s)
  | .ok () =>
    match check_state s .column with
    | (.error e, s') => (.error e, s')
    | (.ok _, s') =>
      (.ok (), { s' with
        output := write_escaped_unquoted
          (s'.output ++ [if 0 < State.mask s'.state &&& Op.mask Op.symbol
                         then ' ' else ',']) name ++ ['='],
        state := .ColumnWritten })

/-- Embedding of `LineSender::column_bool`: the column key, then `t` or `f`. -/
def column_bool (s : Sender) (name : List Char) (value : Bool) : Step :=
  match write_column_key s name with
  | (.error e, s') => (.error e, s')
  | (.ok _, s') =>
    (.ok (), { s' with output := s'.output ++ [if value then 't' else 'f'] })

/-- Embedding of `LineSender::column_i64`: the column key, then
`write!("{}i", value)`. -/
def column_i64 (s : Sender) (name : List Char) (value : Int) : Step :=
  match write_column_key s name with
  | (.error e, s') => (.error e, s')
  | (.ok _, s') =>
    (.ok (), { s' with output := s'.output ++ i64_to_chars value ++ ['i'] })

/-- Embedding of `LineSender::column_f64`: the column key, then `Infinity` /
`-Infinity` for the two infinities, otherwise the default float formatting. -/
def column_f64 (s : Sender) (name : List Char) (value : F64) : Step :=
  match write_column_key s name with
  | (.error e, s') => (.error e, s')
  | (.ok _, s') =>
    (.ok (), { s' with output := s'.output ++
      (match value with
       | .posInf => "Infinity".toList
       | .negInf => "-Infinity".toList
       | .nan => ['N', 'a', 'N']
       | .finite text => text) })

/-- Embedding of `LineSender::column_str`: the column key, then the value
with quoted escaping. -/
def column_str (s : Sender) (name value : List Char) : Step :=
  match write_column_key s name with
  | (.error e, s') => (.error e, s')
  | (.ok _, s') =>
    (.ok (), { s' with output := write_escaped_quoted s'.output value })

/-- Embedding of `LineSender::pending_size`: the buffer's byte length, or 0
when `Moribund`. -/
def pending_size (s : Sender) : Nat :=
  if s.state ≠ State.Moribund then byte_len s.output else 0

/-- Embedding of `LineSender::update_last_line_start`. -/
def update_last_line_start (s : Sender) : Sender :=
  { s with last_line_start := pending_size s }

/-- Embedding of `LineSender::at`: state check, append a space, the decimal
timestamp and a newline, advance the boundary, state `MayFlushOrTable`. -/
def at_ts (s : Sender) (epoch_nanos : Int) : Step :=
  match check_state s .at_op with
  | (.error e, s') => (.error e, s')
  | (.ok _, s') =>
    (.ok (), { update_last_line_start
      { s' with output := s'.output ++ [' '] ++ i64_to_chars epoch_nanos ++ [newline_char] }
      with state := .MayFlushOrTable })

/-- Embedding of `LineSender::at_now`: state check, append a bare newline,
advance the boundary, state `MayFlushOrTable`. -/
def at_now (s : Sender) : Step :=
  match check_state s .at_op with
  | (.error e, s') => (.error e, s')
  | (.ok _, s') =>
    (.ok (), { update_last_line_start { s' with output := s'.output ++ [newline_char] }
      with state := .MayFlushOrTable })

/-- Embedding of `LineSender::flush`: state check, then the socket write —
external, modelled by `io_ok`. On write failure the state becomes `Moribund`
and the buffer is untouched; on success the buffer is cleared and the state
returns to `Connected` (note: `last_line_start` is not modified). -/
def flush (s : Sender) (io_ok : Bool) : Step :=
  match check_state s .flush with
  | (.error e, s') => (.error e, s')
  | (.ok _, s') =>
    if io_ok then (.ok (), { s' with output := [], state := .Connected })
    else (.error .socketError, { s' with state := .Moribund })

/-- Embedding of `LineSender::must_close`. -/
def must_close (s : Sender) : Bool := s.state = State.Moribund

/-- Every mutating public call of `LineSender`, with its arguments; the
socket outcome of `flush` is its boolean parameter. -/
inductive OpCall
  | table (name : List Char)
  | symbol (name value : List Char)
  | column_bool (name : List Char) (v : Bool)
  | column_i64 (name : List Char) (v : Int)
  | column_f64 (name : List Char) (v : F64)
  | column_str (name value : List Char)
  | at_ts (t : Int)
  | at_now
  | flush (io_ok : Bool)
deriving DecidableEq, Repr

/-- The `Op` each call passes to `check_state`. -/
def OpCall.op : OpCall → Op
  | .table _ => .table
  | .symbol _ _ => .symbol
  | .column_bool _ _ => .column
  | .column_i64 _ _ => .column
  | .column_f64 _ _ => .column
  | .column_str _ _ => .column
  | .at_ts _ => .at_op
  | .at_now => .at_op
  | .flush _ => .flush

/-- Dispatch a call to its embedded operation. -/
def OpCall.run : OpCall → Sender → Step
  | .table n, s => QuestDB.table s n
  | .symbol n v, s => QuestDB.symbol s n v
  | .column_bool n v, s => QuestDB.column_bool s n v
  | .column_i64 n v, s => QuestDB.column_i64 s n v
  | .column_f64 n v, s => QuestDB.column_f64 s n v
  | .column_str n v, s => QuestDB.column_str s n v
  | .at_ts t, s => QuestDB.at_ts s t
  | .at_now, s => QuestDB.at_now s
  | .flush ok, s => QuestDB.flush s ok

/-- Success test on an `Except`. -/
def except_ok {ε α : Type} : Except ε α → Bool
  | .ok _ => true
  | .error _ => false

/-- A call's name argument passes validation (vacuously true for the calls
that take no name). -/
def OpCall.name_ok : OpCall → Bool
  | .table n => except_ok (name_new n)
  | .symbol n _ => except_ok (name_new n)
  | .column_bool n _ => except_ok (name_new n)
  | .column_i64 n _ => except_ok (name_new n)
  | .column_f64 n _ => except_ok (name_new n)
  | .column_str n _ => except_ok (name_new n)
  | _ => true

lemma except_ok_unit {ε : Type} {r : Except ε Unit} (h : except_ok r = true) :
    r = .ok () := by
  cases r with
  | ok u => cases u; rfl
  | error e => simp [except_ok] at h

lemma check_state_ok (s : Sender) (op : Op) (h : spec_legal s.state op = true) :
    check_state s op = (.ok (), s) := by
  rw [check_state, if_pos ((spec_legal_iff_mask _ _).mp h)]

lemma check_state_illegal (s : Sender) (op : Op) (h : spec_legal s.state op = false) :
    check_state s op
      = (.error (.invalidApiCall op s.state), { s with state := .Moribund }) := by
  rw [check_state, if_neg]
  intro hm
  rw [(spec_legal_iff_mask _ _).mpr hm] at h
  cases h

lemma table_illegal (s : Sender) (n : List Char) (hn : name_new n = .ok ())
    (h : spec_legal s.state .table = false) :
    table s n = (.error (.invalidApiCall .table s.state), { s with state := .Moribund }) := by
  rw [table, hn, check_state_illegal s .table h]

lemma symbol_illegal (s : Sender) (n v : List Char) (hn : name_new n = .ok ())
    (h : spec_legal s.state .symbol = false) :
    symbol s n v = (.error (.invalidApiCall .symbol s.state), { s with state := .Moribund }) := by
  rw [symbol, hn, check_state_illegal s .symbol h]

lemma write_column_key_illegal (s : Sender) (n : List Char) (hn : name_new n = .ok ())
    (h : spec_legal s.state .column = false) :
    write_column_key s n
      = (.error (.invalidApiCall .column s.state), { s with state := .Moribund }) := by
  rw [write_column_key, hn, check_state_illegal s .column h]

lemma column_bool_illegal (s : Sender) (n : List Char) (v : Bool)
    (hn : name_new n = .ok ()) (h : spec_legal s.state .column = false) :
    column_bool s n v
      = (.error (.invalidApiCall .column s.state), { s with state := .Moribund }) := by
  rw [column_bool, write_column_key_illegal s n hn h]

lemma column_i64_illegal (s : Sender) (n : List Char) (v : Int)
    (hn : name_new n = .ok ()) (h : spec_legal s.state .column = false) :
    column_i64 s n v
      = (.error (.invalidApiCall .column s.state), { s with state := .Moribund }) := by
  rw [column_i64, write_column_key_illegal s n hn h]

lemma column_f64_illegal (s : Sender) (n : List Char) (v : F64)
    (hn : name_new n = .ok ()) (h : spec_legal s.state .column = false) :
    column_f64 s n v
      = (.error (.invalidApiCall .column s.state), { s with state := .Moribund }) := by
  rw [column_f64.eq_def, write_column_key_illegal s n hn h]

lemma column_str_illegal (s : Sender) (n v : List Char)
    (hn : name_new n = .ok ()) (h : spec_legal s.state .column = false) :
    column_str s n v
      = (.error (.invalidApiCall .column s.state), { s with state := .Moribund }) := by
  rw [column_str, write_column_key_illegal s n hn h]

lemma at_ts_illegal (s : Sender) (t : Int) (h : spec_legal s.state .at_op = false) :
    at_ts s t = (.error (.invalidApiCall .at_op s.state), { s with state := .Moribund }) := by
  rw [at_ts, check_state_illegal s .at_op h]

lemma at_now_illegal (s : Sender) (h : spec_legal s.state .at_op = false) :
    at_now s = (.error (.invalidApiCall .at_op s.state), { s with state := .Moribund }) := by
  rw [at_now, check_state_illegal s .at_op h]

lemma flush_illegal (s : Sender) (io_ok : Bool) (h : spec_legal s.state .flush = false) :
    flush s io_ok
      = (.error (.invalidApiCall .flush s.state), { s with state := .Moribund }) := by
  rw [flush, check_state_illegal s .flush h]

lemma write_column_key_ok (s : Sender) (n : List Char)
    (hn : name_new n = .ok ()) (h : spec_legal s.state .column = true) :
    write_column_key s n = (.ok (), { s with
      output := s.output
        ++ [if 0 < State.mask s.state &&& Op.mask Op.symbol then ' ' else ',']
        ++ escape_chars must_escape_unquoted n ++ ['='],
      state := .ColumnWritten }) := by
  rw [write_column_key, hn, check_state_ok s .column h]
  simp [write_escaped_unquoted, write_escaped_impl_eq]

lemma table_ok (s : Sender) (n : List Char)
    (hn : name_new n = .ok ()) (h : spec_legal s.state .table = true) :
    table s n = (.ok (), { s with
      output := s.output ++ escape_chars must_escape_unquoted n,
      state := .TableWritten }) := by
  rw [table, hn, check_state_ok s .table h]
  simp [write_escaped_unquoted, write_escaped_impl_eq]

lemma symbol_ok (s : Sender) (n v : List Char)
    (hn : name_new n = .ok ()) (h : spec_legal s.state .symbol = true) :
    symbol s n v = (.ok (), { s with
      output := s.output ++ [','] ++ escape_chars must_escape_unquoted n ++ ['=']
        ++ escape_chars must_escape_unquoted v,
      state := .SymbolWritten }) := by
  rw [symbol, hn, check_state_ok s .symbol h]
  simp [write_escaped_unquoted, write_escaped_impl_eq]

/-- C6: escaping has a left inverse — for every input, removing each backslash
the unquoted strategy inserted before a character of
{space, comma, equals, newline, carriage-return, double-quote, backslash}
recovers the original string, and stripping the surrounding quotes emitted by
the quoted strategy and removing each inserted backslash before a character of
{newline, carriage-return, double-quote, backslash} recovers the original
string; in particular both escapers are injective. -/
theorem c6_escape_roundtrip (s : List Char) :
    unescape must_escape_unquoted (write_escaped_unquoted [] s) = s ∧
    unescape must_escape_quoted (strip_quotes (write_escaped_quoted [] s)) = s := by
  constructor
  · rw [write_escaped_unquoted, write_escaped_impl_eq]
    simp only [List.nil_append, List.append_nil]
    exact unescape_escape_chars must_escape_unquoted (by decide) s
  · rw [write_escaped_quoted, write_escaped_impl_eq]
    have h1 : ([] : List Char) ++ [quote_char] ++ escape_chars must_escape_quoted s
        ++ [quote_char]
        = quote_char :: (escape_chars must_escape_quoted s ++ [quote_char]) := by
      simp
    rw [h1, strip_quotes]
    simp only [List.drop_succ_cons, List.drop_zero]
    rw [List.dropLast_concat]
    exact unescape_escape_chars must_escape_quoted (by decide) s

/-- C7: from a fresh `Connected` sender, `table "x"`, `column_f64 "f" +∞`,
`at 123` each succeed, the buffer then holds exactly `x f=Infinity 123`
followed by a newline, and the committed-line boundary equals the buffer's
byte length. -/
theorem c7_infinity_scenario :
    (table fresh_sender ['x']).1 = .ok () ∧
    (column_f64 (table fresh_sender ['x']).2 ['f'] .posInf).1 = .ok () ∧
    (at_ts (column_f64 (table fresh_sender ['x']).2 ['f'] .posInf).2 123).1 = .ok () ∧
    (at_ts (column_f64 (table fresh_sender ['x']).2 ['f'] .posInf).2 123).2.output
      = "x f=Infinity 123".toList ++ [newline_char] ∧
    (at_ts (column_f64 (table fresh_sender ['x']).2 ['f'] .posInf).2 123).2.last_line_start
      = byte_len (at_ts (column_f64 (table fresh_sender ['x']).2 ['f'] .posInf).2 123).2.output := by
  refine ⟨rfl, rfl, rfl, by decide, by decide⟩

/-- C3: `Name::new` on `"é:"` rejects the reserved character `:` but reports
position 1 — its character index from `chars().enumerate()` — although the
character sits at byte offset 2 of the UTF-8 string (the é occupies two
bytes); the error message nonetheless labels the number a "byte position". -/
theorem c3_name_position_is_char_index :
    name_new ['é', ':'] = .error (.bad_char ':' 1) ∧
    byte_offset_at ['é', ':'] 1 = 2 ∧ (1 : Nat) ≠ 2 := by
  refine ⟨rfl, by decide, by decide⟩

/-- C2 counterexample: starting fresh, `table "x"` (which writes no symbol —
the buffer afterwards is exactly `x`) followed by `column_bool "a" true`
writes a space, not a comma, before the column key: the buffer becomes
`x a=t` although no symbol has been written in the current line, refuting
"space if and only if at least one symbol has already been written". -/
theorem c2_counterexample_space_without_symbol :
    (table fresh_sender ['x']).2.output = ['x'] ∧
    (column_bool (table fresh_sender ['x']).2 ['a'] true).2.output
      = ['x', ' ', 'a', '=', 't'] ∧
    (' ' : Char) ≠ ',' := by
  refine ⟨by decide, by decide, by decide⟩

/-- C4 counterexample: the sequence `table "x"`, `column_bool "a" true`,
`at_now`, then a successful `flush` leaves `last_line_start` at 6 (its value
from `at_now`), not 0 — `flush` clears the buffer and returns to `Connected`
but does not reset the committed-line boundary. -/
theorem c4_counterexample_boundary_not_reset :
    (flush (at_now (column_bool (table fresh_sender ['x']).2 ['a'] true).2).2 true).1
      = .ok () ∧
    (flush (at_now (column_bool (table fresh_sender ['x']).2 ['a'] true).2).2 true).2.last_line_start
      = 6 ∧ (6 : Nat) ≠ 0 := by
  refine ⟨rfl, by decide, by decide⟩

lemma bool_eq_false {b : Bool} (h : ¬ b = true) : b = false := by
  cases b
  · rfl
  · exact absurd rfl h

lemma table_err (s : Sender) (n : List Char) (e : SenderError)
    (h : (table s n).1 = .error e) :
    (table s n).2.output = s.output ∧
    (∀ ne : NameError, e = .invalidName ne → (table s n).2 = s) := by
  cases hn : name_new n with
  | error ne' =>
    simp [table, hn]
  | ok u =>
    cases u
    by_cases hleg : spec_legal s.state .table = true
    · rw [table_ok s n hn hleg] at h
      simp at h
    · have hf := bool_eq_false hleg
      rw [table_illegal s n hn hf] at h ⊢
      refine ⟨rfl, ?_⟩
      intro ne hne
      injection h with h1
      rw [← h1] at hne
      cases hne

lemma symbol_err (s : Sender) (n v : List Char) (e : SenderError)
    (h : (symbol s n v).1 = .error e) :
    (symbol s n v).2.output = s.output ∧
    (∀ ne : NameError, e = .invalidName ne → (symbol s n v).2 = s) := by
  cases hn : name_new n with
  | error ne' =>
    simp [symbol, hn]
  | ok u =>
    cases u
    by_cases hleg : spec_legal s.state .symbol = true
    · rw [symbol_ok s n v hn hleg] at h
      simp at h
    · have hf := bool_eq_false hleg
      rw [symbol_illegal s n v hn hf] at h ⊢
      refine ⟨rfl, ?_⟩
      intro ne hne
      injection h with h1
      rw [← h1] at hne
      cases hne

lemma write_column_key_err (s : Sender) (n : List Char) (e : SenderError) (s2 : Sender)
    (h : write_column_key s n = (.error e, s2)) :
    s2.output = s.output ∧
    (∀ ne : NameError, e = .invalidName ne → s2 = s) := by
  cases hn : name_new n with
  | error ne' =>
    simp only [write_column_key, hn] at h
    injection h with h1 h2
    injection h1 with h3
    rw [← h2]
    exact ⟨rfl, fun _ _ => rfl⟩
  | ok u =>
    cases u
    by_cases hleg : spec_legal s.state .column = true
    · rw [write_column_key_ok s n hn hleg] at h
      simp at h
    · have hf := bool_eq_false hleg
      rw [write_column_key_illegal s n hn hf] at h
      injection h with h1 h2
      injection h1 with h3
      rw [← h2]
      refine ⟨rfl, ?_⟩
      intro ne hne
      rw [← h3] at hne
      cases hne

lemma column_bool_err (s : Sender) (n : List Char) (v : Bool) (e : SenderError)
    (h : (column_bool s n v).1 = .error e) :
    (column_bool s n v).2.output = s.output ∧
    (∀ ne : NameError, e = .invalidName ne → (column_bool s n v).2 = s) := by
  cases hw : write_column_key s n with
  | mk r s2 =>
    cases r with
    | error e2 =>
      simp only [column_bool, hw] at h ⊢
      injection h with h1
      rw [← h1]
      exact write_column_key_err s n e2 s2 hw
    | ok u =>
      cases u
      simp only [column_bool, hw] at h
      simp at h

lemma column_i64_err (s : Sender) (n : List Char) (v : Int) (e : SenderError)
    (h : (column_i64 s n v).1 = .error e) :
    (column_i64 s n v).2.output = s.output ∧
    (∀ ne : NameError, e = .invalidName ne → (column_i64 s n v).2 = s) := by
  cases hw : write_column_key s n with
  | mk r s2 =>
    cases r with
    | error e2 =>
      simp only [column_i64, hw] at h ⊢
      injection h with h1
      rw [← h1]
      exact write_column_key_err s n e2 s2 hw
    | ok u =>
      cases u
      simp only [column_i64, hw] at h
      simp at h

lemma column_f64_err (s : Sender) (n : List Char) (v : F64) (e : SenderError)
    (h : (column_f64 s n v).1 = .error e) :
    (column_f64 s n v).2.output = s.output ∧
    (∀ ne : NameError, e = .invalidName ne → (column_f64 s n v).2 = s) := by
  cases hw : write_column_key s n with
  | mk r s2 =>
    cases r with
    | error e2 =>
      simp only [column_f64, hw] at h ⊢
      injection h with h1
      rw [← h1]
      exact write_column_key_err s n e2 s2 hw
    | ok u =>
      cases u
      simp only [column_f64, hw] at h
      simp at h

lemma column_str_err (s : Sender) (n v : List Char) (e : SenderError)
    (h : (column_str s n v).1 = .error e) :
    (column_str s n v).2.output = s.output ∧
    (∀ ne : NameError, e = .invalidName ne → (column_str s n v).2 = s) := by
  cases hw : write_column_key s n with
  | mk r s2 =>
    cases r with
    | error e2 =>
      simp only [column_str, hw] at h ⊢
      injection h with h1
      rw [← h1]
      exact write_column_key_err s n e2 s2 hw
    | ok u =>
      cases u
      simp only [column_str, hw] at h
      simp at h

lemma at_ts_err (s : Sender) (t : Int) (e : SenderError)
    (h : (at_ts s t).1 = .error e) :
    (at_ts s t).2.output = s.output ∧
    (∀ ne : NameError, e = .invalidName ne → (at_ts s t).2 = s) := by
  by_cases hleg : spec_legal s.state .at_op = true
  · rw [at_ts, check_state_ok s .at_op hleg] at h
    simp at h
  · have hf := bool_eq_false hleg
    rw [at_ts_illegal s t hf] at h ⊢
    refine ⟨rfl, ?_⟩
    intro ne hne
    injection h with h1
    rw [← h1] at hne
    cases hne

lemma at_now_err (s : Sender) (e : SenderError)
    (h : (at_now s).1 = .error e) :
    (at_now s).2.output = s.output ∧
    (∀ ne : NameError, e = .invalidName ne → (at_now s).2 = s) := by
  by_cases hleg : spec_legal s.state .at_op = true
  · rw [at_now, check_state_ok s .at_op hleg] at h
    simp at h
  · have hf := bool_eq_false hleg
    rw [at_now_illegal s hf] at h ⊢
    refine ⟨rfl, ?_⟩
    intro ne hne
    injection h with h1
    rw [← h1] at hne
    cases hne

lemma flush_err (s : Sender) (io_ok : Bool) (e : SenderError)
    (h : (flush s io_ok).1 = .error e) :
    (flush s io_ok).2.output = s.output ∧
    (∀ ne : NameError, e = .invalidName ne → (flush s io_ok).2 = s) := by
  by_cases hleg : spec_legal s.state .flush = true
  · rw [flush, check_state_ok s .flush hleg] at h ⊢
    cases io_ok with
    | false =>
      refine ⟨rfl, ?_⟩
      intro ne hne
      injection h with h1
      rw [← h1] at hne
      cases hne
    | true =>
      simp at h
  · have hf := bool_eq_false hleg
    rw [flush_illegal s io_ok hf] at h ⊢
    refine ⟨rfl, ?_⟩
    intro ne hne
    injection h with h1
    rw [← h1] at hne
    cases hne

/-- C5: whenever one of the mutating calls returns an error, no bytes were
appended to the output buffer by that call; and when the error is an
invalid-name error (empty, reserved character, or BOM), the whole sender —
state included — is left exactly as it was, so the caller may correct the
input and retry. -/
theorem c5_failed_calls_append_nothing (call : OpCall) (s : Sender) (e : SenderError)
    (h : (call.run s).1 = .error e) :
    (call.run s).2.output = s.output ∧
    (∀ ne : NameError, e = .invalidName ne → (call.run s).2 = s) := by
  cases call with
  | table n => exact table_err s n e h
  | symbol n v => exact symbol_err s n v e h
  | column_bool n v => exact column_bool_err s n v e h
  | column_i64 n v => exact column_i64_err s n v e h
  | column_f64 n v => exact column_f64_err s n v e h
  | column_str n v => exact column_str_err s n v e h
  | at_ts t => exact at_ts_err s t e h
  | at_now => exact at_now_err s e h
  | flush io_ok => exact flush_err s io_ok e h

/-- C5 witness: `table ""` on a fresh sender fails with the empty-name error
and leaves the sender untouched. -/
theorem c5_witness :
    (OpCall.run (.table []) fresh_sender).1 = .error (.invalidName .empty_name) ∧
    ((OpCall.run (.table []) fresh_sender).2.output = fresh_sender.output ∧
     (∀ ne : NameError, SenderError.invalidName NameError.empty_name = .invalidName ne →
       (OpCall.run (.table []) fresh_sender).2 = fresh_sender)) :=
  ⟨rfl, c5_failed_calls_append_nothing (.table []) fresh_sender
    (.invalidName .empty_name) rfl⟩

/-- C1: any of the nine mutating operations, called with a valid name where
one is required, in a state whose legal operation set — the section 4.4
table, `spec_legal` — does not contain that operation, returns exactly the
`InvalidApiCall` error naming the operation and the violated state, and the
state transitions to `Moribund`; moreover `Moribund`'s legal set is empty,
so from `Moribund` every such call again satisfies the hypothesis, fails the
same way, and the state remains `Moribund` (a sink). -/
theorem c1_illegal_call_goes_moribund (call : OpCall) (s : Sender)
    (hname : call.name_ok = true)
    (hill : spec_legal s.state call.op = false) :
    ((call.run s).1 = .error (.invalidApiCall call.op s.state) ∧
     SenderError.code (.invalidApiCall call.op s.state) = .InvalidApiCall ∧
     (call.run s).2.state = .Moribund) ∧
    (∀ op2 : Op, spec_legal .Moribund op2 = false) := by
  refine ⟨?_, fun op2 => by cases op2 <;> rfl⟩
  cases call with
  | table n =>
    rw [OpCall.run, table_illegal s n (except_ok_unit hname) hill]
    exact ⟨rfl, rfl, rfl⟩
  | symbol n v =>
    rw [OpCall.run, symbol_illegal s n v (except_ok_unit hname) hill]
    exact ⟨rfl, rfl, rfl⟩
  | column_bool n v =>
    rw [OpCall.run, column_bool_illegal s n v (except_ok_unit hname) hill]
    exact ⟨rfl, rfl, rfl⟩
  | column_i64 n v =>
    rw [OpCall.run, column_i64_illegal s n v (except_ok_unit hname) hill]
    exact ⟨rfl, rfl, rfl⟩
  | column_f64 n v =>
    rw [OpCall.run, column_f64_illegal s n v (except_ok_unit hname) hill]
    exact ⟨rfl, rfl, rfl⟩
  | column_str n v =>
    rw [OpCall.run, column_str_illegal s n v (except_ok_unit hname) hill]
    exact ⟨rfl, rfl, rfl⟩
  | at_ts t =>
    rw [OpCall.run, at_ts_illegal s t hill]
    exact ⟨rfl, rfl, rfl⟩
  | at_now =>
    rw [OpCall.run, at_now_illegal s hill]
    exact ⟨rfl, rfl, rfl⟩
  | flush io_ok =>
    rw [OpCall.run, flush_illegal s io_ok hill]
    exact ⟨rfl, rfl, rfl⟩

/-- C1 witness: `at_now` immediately after connect (state `Connected`, where
`at` is not legal) fails with `InvalidApiCall` and poisons the sender. -/
theorem c1_witness :
    OpCall.name_ok .at_now = true ∧
    spec_legal fresh_sender.state (OpCall.op .at_now) = false ∧
    (((OpCall.run .at_now fresh_sender).1
        = .error (.invalidApiCall (OpCall.op .at_now) fresh_sender.state) ∧
      SenderError.code (.invalidApiCall (OpCall.op .at_now) fresh_sender.state)
        = .InvalidApiCall ∧
      (OpCall.run .at_now fresh_sender).2.state = .Moribund) ∧
     (∀ op2 : Op, spec_legal .Moribund op2 = false)) :=
  ⟨rfl, rfl, c1_illegal_call_goes_moribund .at_now fresh_sender rfl rfl⟩

/-- C2 (amended): for every legal column call, the separator written before
the escaped key is a space exactly when the symbol bit is still set in the
*current* state — states `TableWritten` and `SymbolWritten`, i.e. when no
column has yet been written to the current line — and a comma in state
`ColumnWritten` (after the first column). Whether a symbol has actually been
written does not decide the separator: after `table` alone the state is
`TableWritten` and the separator is already a space. -/
theorem c2_separator_amended (s : Sender) (name : List Char)
    (hn : name_new name = .ok ()) (hleg : spec_legal s.state .column = true) :
    ((s.state = State.TableWritten ∨ s.state = State.SymbolWritten) →
      (write_column_key s name).2.output
        = s.output ++ [' '] ++ escape_chars must_escape_unquoted name ++ ['=']) ∧
    (s.state = State.ColumnWritten →
      (write_column_key s name).2.output
        = s.output ++ [','] ++ escape_chars must_escape_unquoted name ++ ['=']) ∧
    ((s.state = State.TableWritten ∨ s.state = State.SymbolWritten)
      ↔ 0 < State.mask s.state &&& Op.mask Op.symbol) := by
  refine ⟨?_, ?_, ?_⟩
  · intro h
    rw [write_column_key_ok s name hn hleg]
    rcases h with h | h <;> rw [h] <;> rw [if_pos (by decide)]
  · intro h
    rw [write_column_key_ok s name hn hleg, h, if_neg (by decide)]
  · cases hst : s.state with
    | Connected => exact absurd (hst ▸ hleg) (by decide)
    | MayFlushOrTable => exact absurd (hst ▸ hleg) (by decide)
    | Moribund => exact absurd (hst ▸ hleg) (by decide)
    | TableWritten => decide
    | SymbolWritten => decide
    | ColumnWritten => decide

/-- C2 witness: in state `SymbolWritten` (a symbol was written) the column
separator is a space, and the symbol bit of the state is set. -/
theorem c2_witness :
    name_new ['a'] = .ok () ∧
    spec_legal State.SymbolWritten .column = true ∧
    (((State.SymbolWritten = State.TableWritten ∨
        State.SymbolWritten = State.SymbolWritten) →
      (write_column_key ⟨.SymbolWritten, ['t'], 0⟩ ['a']).2.output
        = ['t'] ++ [' '] ++ escape_chars must_escape_unquoted ['a'] ++ ['=']) ∧
     (State.SymbolWritten = State.ColumnWritten →
      (write_column_key ⟨.SymbolWritten, ['t'], 0⟩ ['a']).2.output
        = ['t'] ++ [','] ++ escape_chars must_escape_unquoted ['a'] ++ ['=']) ∧
     ((State.SymbolWritten = State.TableWritten ∨
        State.SymbolWritten = State.SymbolWritten)
       ↔ 0 < State.mask State.SymbolWritten &&& Op.mask Op.symbol)) :=
  ⟨rfl, rfl, c2_separator_amended ⟨.SymbolWritten, ['t'], 0⟩ ['a'] rfl rfl⟩

/-- C4 (amended): after every successful `flush()` the buffer is empty —
`pending_size()` returns 0 — and the state is `Connected`; the committed-line
boundary `last_line_start` is, however, left unchanged by `flush` (it is not
reset to 0). -/
theorem c4_flush_amended (s : Sender) (io_ok : Bool)
    (h : (flush s io_ok).1 = .ok ()) :
    pending_size (flush s io_ok).2 = 0 ∧
    (flush s io_ok).2.output = [] ∧
    (flush s io_ok).2.state = State.Connected ∧
    (flush s io_ok).2.last_line_start = s.last_line_start := by
  by_cases hleg : spec_legal s.state .flush = true
  · rw [flush, check_state_ok s .flush hleg] at h ⊢
    cases io_ok with
    | true => exact ⟨rfl, rfl, rfl, rfl⟩
    | false => simp at h
  · rw [flush_illegal s io_ok (bool_eq_false hleg)] at h
    simp at h

/-- C4 witness: a successful flush from `MayFlushOrTable` with a non-empty
buffer and boundary 3. -/
theorem c4_witness :
    (flush ⟨.MayFlushOrTable, ['a'], 3⟩ true).1 = .ok () ∧
    (pending_size (flush ⟨.MayFlushOrTable, ['a'], 3⟩ true).2 = 0 ∧
     (flush ⟨.MayFlushOrTable, ['a'], 3⟩ true).2.output = [] ∧
     (flush ⟨.MayFlushOrTable, ['a'], 3⟩ true).2.state = State.Connected ∧
     (flush ⟨.MayFlushOrTable, ['a'], 3⟩ true).2.last_line_start
       = (⟨.MayFlushOrTable, ['a'], 3⟩ : Sender).last_line_start) :=
  ⟨rfl, c4_flush_amended ⟨.MayFlushOrTable, ['a'], 3⟩ true rfl⟩

/-- C8: for every legal `column_bool` call the value token appended after the
`=` is the single character `t` when the value is true and `f` when false;
for every legal `column_i64` call it is the decimal rendering of the integer
followed by the literal suffix `i`. -/
theorem c8_bool_i64_value_tokens (s : Sender) (name : List Char) (b : Bool) (v : Int)
    (hn : name_new name = .ok ()) (hleg : spec_legal s.state .column = true) :
    (column_bool s name b).1 = .ok () ∧
    (column_bool s name b).2.output
      = s.output ++ [if 0 < State.mask s.state &&& Op.mask Op.symbol then ' ' else ',']
        ++ escape_chars must_escape_unquoted name ++ ['=']
        ++ [if b then 't' else 'f'] ∧
    (column_i64 s name v).1 = .ok () ∧
    (column_i64 s name v).2.output
      = s.output ++ [if 0 < State.mask s.state &&& Op.mask Op.symbol then ' ' else ',']
        ++ escape_chars must_escape_unquoted name ++ ['=']
        ++ i64_to_chars v ++ ['i'] := by
  rw [column_bool, column_i64, write_column_key_ok s name hn hleg]
  exact ⟨rfl, rfl, rfl, rfl⟩

/-- C8 witness: `column_bool "a" true` and `column_i64 "a" (-42)` in state
`TableWritten`. -/
theorem c8_witness :
    name_new ['a'] = .ok () ∧
    spec_legal State.TableWritten .column = true ∧
    ((column_bool ⟨.TableWritten, ['t'], 0⟩ ['a'] true).1 = .ok () ∧
     (column_bool ⟨.TableWritten, ['t'], 0⟩ ['a'] true).2.output
       = ['t'] ++ [if 0 < State.mask State.TableWritten &&& Op.mask Op.symbol
                   then ' ' else ',']
         ++ escape_chars must_escape_unquoted ['a'] ++ ['=']
         ++ [if true then 't' else 'f'] ∧
     (column_i64 ⟨.TableWritten, ['t'], 0⟩ ['a'] (-42)).1 = .ok () ∧
     (column_i64 ⟨.TableWritten, ['t'], 0⟩ ['a'] (-42)).2.output
       = ['t'] ++ [if 0 < State.mask State.TableWritten &&& Op.mask Op.symbol
                   then ' ' else ',']
         ++ escape_chars must_escape_unquoted ['a'] ++ ['=']
         ++ i64_to_chars (-42) ++ ['i']) :=
  ⟨rfl, rfl, c8_bool_i64_value_tokens ⟨.TableWritten, ['t'], 0⟩ ['a'] true (-42) rfl rfl⟩

/-- C9: a legal `column_f64` call with NaN succeeds and appends the default
float formatting of NaN — the unquoted text `NaN` — as the value token; NaN
is not rejected and not special-cased like the infinities (IEEE-754 equality
makes `NaN == f64::INFINITY` and `NaN == f64::NEG_INFINITY` both false, so
NaN reaches the default-formatter branch). -/
theorem c9_nan_not_special_cased (s : Sender) (name : List Char)
    (hn : name_new name = .ok ()) (hleg : spec_legal s.state .column = true) :
    (column_f64 s name .nan).1 = .ok () ∧
    (column_f64 s name .nan).2.output
      = s.output ++ [if 0 < State.mask s.state &&& Op.mask Op.symbol then ' ' else ',']
        ++ escape_chars must_escape_unquoted name ++ ['=']
        ++ ['N', 'a', 'N'] := by
  rw [column_f64.eq_def, write_column_key_ok s name hn hleg]
  exact ⟨rfl, rfl⟩

/-- C9 witness: `column_f64 "a" NaN` in state `TableWritten`. -/
theorem c9_witness :
    name_new ['a'] = .ok () ∧
    spec_legal State.TableWritten .column = true ∧
    ((column_f64 ⟨.TableWritten, ['t'], 0⟩ ['a'] .nan).1 = .ok () ∧
     (column_f64 ⟨.TableWritten, ['t'], 0⟩ ['a'] .nan).2.output
       = ['t'] ++ [if 0 < State.mask State.TableWritten &&& Op.mask Op.symbol
                   then ' ' else ',']
         ++ escape_chars must_escape_unquoted ['a'] ++ ['=']
         ++ ['N', 'a', 'N']) :=
  ⟨rfl, rfl, c9_nan_not_special_cased ⟨.TableWritten, ['t'], 0⟩ ['a'] rfl rfl⟩

/-- C10: symbol values and text column values are never validated as
identifiers — for every value string (empty, reserved characters, anything),
when the name is valid and the state permits the operation, `symbol` and
`column_str` succeed and append the escaped value (unquoted escaping for the
symbol value, quoted escaping with surrounding quotes for the text value). -/
theorem c10_values_never_validated (s : Sender) (name value : List Char)
    (hn : name_new name = .ok ()) :
    (spec_legal s.state .symbol = true →
      (symbol s name value).1 = .ok () ∧
      (symbol s name value).2.output
        = s.output ++ [','] ++ escape_chars must_escape_unquoted name ++ ['=']
          ++ escape_chars must_escape_unquoted value) ∧
    (spec_legal s.state .column = true →
      (column_str s name value).1 = .ok () ∧
      (column_str s name value).2.output
        = s.output
          ++ [if 0 < State.mask s.state &&& Op.mask Op.symbol then ' ' else ',']
          ++ escape_chars must_escape_unquoted name ++ ['=']
          ++ [quote_char] ++ escape_chars must_escape_quoted value ++ [quote_char]) := by
  constructor
  · intro hleg
    rw [symbol_ok s name value hn hleg]
    exact ⟨rfl, rfl⟩
  · intro hleg
    rw [column_str, write_column_key_ok s name hn hleg]
    refine ⟨rfl, ?_⟩
    simp [write_escaped_quoted, write_escaped_impl_eq]

/-- C10 witness: a value containing a space, a comma and a reserved `?` is
accepted by both `symbol` and `column_str` in state `TableWritten`. -/
theorem c10_witness :
    name_new ['a'] = .ok () ∧
    ((spec_legal State.TableWritten .symbol = true →
      (symbol ⟨.TableWritten, ['t'], 0⟩ ['a'] [' ', ',', '?']).1 = .ok () ∧
      (symbol ⟨.TableWritten, ['t'], 0⟩ ['a'] [' ', ',', '?']).2.output
        = ['t'] ++ [','] ++ escape_chars must_escape_unquoted ['a'] ++ ['=']
          ++ escape_chars must_escape_unquoted [' ', ',', '?']) ∧
     (spec_legal State.TableWritten .column = true →
      (column_str ⟨.TableWritten, ['t'], 0⟩ ['a'] [' ', ',', '?']).1 = .ok () ∧
      (column_str ⟨.TableWritten, ['t'], 0⟩ ['a'] [' ', ',', '?']).2.output
        = ['t']
          ++ [if 0 < State.mask State.TableWritten &&& Op.mask Op.symbol
              then ' ' else ',']
          ++ escape_chars must_escape_unquoted ['a'] ++ ['=']
          ++ [quote_char] ++ escape_chars must_escape_quoted [' ', ',', '?']
          ++ [quote_char])) :=
  ⟨rfl, c10_values_never_validated ⟨.TableWritten, ['t'], 0⟩ ['a'] [' ', ',', '?'] rfl⟩

end QuestDB
